import Mathlib

/-!
Shallow embedding of the NYTHC onboarding flow: data model, form validation,
alumni-eligibility rule, mock LinkedIn verification pipeline, and the
App-level onboarding state machine, together with theorems about them.
-/

namespace NYTHC

/-! ## Data model (src/types/navigation.ts) -/

/-- Type `UserRole` from navigation.ts: 'alumni' | 'student' | 'guest'. -/
inductive UserRole
  | alumni
  | student
  | guest
deriving DecidableEq, Repr

/-- Type `AuthUser` from navigation.ts: optional TS fields become `Option`. -/
structure AuthUser where
  id : String
  email : String
  role : UserRole
  firstName : Option String
  lastName : Option String
  needsVerification : Bool
deriving DecidableEq, Repr

/-- Record `{ year: number; month?: number }` used for education start/end dates. -/
structure YearMonth where
  year : Nat
  month : Option Nat
deriving DecidableEq, Repr

/-- Type `LinkedInEducation` from navigation.ts. -/
structure LinkedInEducation where
  schoolName : String
  fieldOfStudy : Option String
  degree : Option String
  startDate : Option YearMonth
  endDate : Option YearMonth
deriving DecidableEq, Repr

/-- Type `LinkedInProfile` from navigation.ts. -/
structure LinkedInProfile where
  id : String
  firstName : String
  lastName : String
  email : String
  education : List LinkedInEducation
  profilePicture : Option String
deriving DecidableEq, Repr

/-! ## String helpers

JS `hay.includes(needle)` is contiguous-substring containment; we embed it
on the character lists of the strings. -/

/-- Predicate `hasPfx hay needle`: `needle` is a leading segment of `hay`. -/
def hasPfx : List Char → List Char → Bool
  | _, [] => true
  | [], _ :: _ => false
  | h :: hs, n :: ns => (h == n) && hasPfx hs ns

/-- Predicate `hasSub needle hay`: `needle` occurs contiguously somewhere in `hay`. -/
def hasSub (needle : List Char) : List Char → Bool
  | [] => hasPfx [] needle
  | c :: rest => hasPfx (c :: rest) needle || hasSub needle rest

/-- Embedding of JS `hay.includes(sub)`. -/
def strIncludes (hay sub : String) : Bool :=
  hasSub sub.data hay.data

/-- Embedding of JS `toLowerCase()` (character-wise lowering, which is all
the ASCII variant strings exercise). Defined over the character list so
that it evaluates inside the kernel. -/
def strToLower (s : String) : String :=
  String.mk (s.data.map Char.toLower)

/-! ## Alumni eligibility (LinkedInVerificationScreen) -/

/-- The `norfolkStateVariations` constant. -/
def norfolkStateVariations : List String :=
  [ "Norfolk State University"
  , "Norfolk State College"
  , "Norfolk State"
  , "NSU"
  , "Norfolk State Univ"
  , "Norfolk State Univ." ]

/-- Body of `verifyNorfolkStateAlumni`, generalised over the variant list and
the current year exactly as the spec's `isEligibleAlumnus` signature does:
`education.some(edu => schoolMatch && hasGraduated)` where `schoolMatch`
lower-cases both sides and uses `includes`, and `hasGraduated` requires a
present end date with `year < currentYear`. -/
def isEligibleAlumnus (records : List LinkedInEducation)
    (institutionVariants : List String) (currentYear : Nat) : Bool :=
  records.any fun edu =>
    (institutionVariants.any fun variation =>
      strIncludes (strToLower edu.schoolName) (strToLower variation))
    &&
    (match edu.endDate with
     | some endDate => decide (endDate.year < currentYear)
     | none => false)

/-- Function `verifyNorfolkStateAlumni(profile)`; `new Date().getFullYear()` is passed
explicitly as `currentYear`. -/
def verifyNorfolkStateAlumni (profile : LinkedInProfile) (currentYear : Nat) : Bool :=
  isEligibleAlumnus profile.education norfolkStateVariations currentYear

/-! ## Form validation (AuthenticationScreen) -/

/-- JS whitespace `\s` per ECMAScript (WhiteSpace plus LineTerminator):
tab, LF, VT, FF, CR, space, NBSP, U+1680, the U+2000..U+200A space
separators, LS, PS, U+202F, U+205F, U+3000 and ZWNBSP. -/
def isSpaceJS (c : Char) : Bool :=
  c == '\t' || c == '\n' || c == '\u000B' || c == '\u000C' || c == '\r'
    || c == ' ' || c == '\u00A0' || c == '\u1680'
    || ('\u2000' ≤ c && c ≤ '\u200A')
    || c == '\u2028' || c == '\u2029' || c == '\u202F' || c == '\u205F'
    || c == '\u3000' || c == '\uFEFF'

/-- JS `\S`: a character outside the `\s` class. -/
def nonSp (c : Char) : Bool := !isSpaceJS c

/-- Anchored match of the regex fragment `\S*\.\S` (the tail of `\S+\.\S+`
after its first mandatory character), with full backtracking. -/
def matchDotTail : List Char → Bool
  | [] => false
  | [_] => false
  | c :: d :: rest => (c == '.' && nonSp d) || (nonSp c && matchDotTail (d :: rest))

/-- Anchored match of `\S+\.\S+` (what must follow the `@`). -/
def matchAfterAt : List Char → Bool
  | [] => false
  | c :: rest => nonSp c && matchDotTail rest

/-- Anchored match of `\S*@\S+\.\S+` (the tail of the e-mail pattern after
its first mandatory character). -/
def matchAtTail : List Char → Bool
  | [] => false
  | c :: rest => (c == '@' && matchAfterAt rest) || (nonSp c && matchAtTail rest)

/-- Search for a match of `\S+@\S+\.\S+` starting at any position. -/
def emailSearch : List Char → Bool
  | [] => false
  | c :: rest => (nonSp c && matchAtTail rest) || emailSearch rest

/-- Embedding of `/\S+@\S+\.\S+/.test(email)` (JS `test` looks for a match
anywhere in the string). -/
def emailRegexTest (s : String) : Bool := emailSearch s.data

/-- Function `validateEmail` from AuthenticationScreen. -/
def validateEmail (email : String) : Option String :=
  if email = "" then some "Email is required"
  else if !emailRegexTest email then some "Please enter a valid email"
  else none

/-- The `[a-z]` character class. -/
def isLowerAZ (c : Char) : Bool := 'a' ≤ c && c ≤ 'z'

/-- The `[A-Z]` character class. -/
def isUpperAZ (c : Char) : Bool := 'A' ≤ c && c ≤ 'Z'

/-- The `\d` character class. -/
def isDigit09 (c : Char) : Bool := '0' ≤ c && c ≤ '9'

/-- JS line terminators (LF, CR, LS, PS): the characters the dot of the
lookaheads does not match. -/
def isLineTerm (c : Char) : Bool :=
  c == '\n' || c == '\r' || c == '\u2028' || c == '\u2029'

/-- The characters the `.*` of a lookahead can reach from a position: the
run up to the first line terminator. -/
def dotStretch (l : List Char) : List Char :=
  l.takeWhile fun c => !isLineTerm c

/-- The conjunction `(?=.*[a-z])(?=.*[A-Z])(?=.*\d)` evaluated at one
position: each lookahead finds its class within the dot-reachable run
(the class characters themselves are never line terminators). -/
def complexityAt (l : List Char) : Bool :=
  (dotStretch l).any isLowerAZ && (dotStretch l).any isUpperAZ
    && (dotStretch l).any isDigit09

/-- The lookahead conjunction searched at every position, as JS `test`
does. -/
def complexitySearch : List Char → Bool
  | [] => complexityAt []
  | c :: rest => complexityAt (c :: rest) || complexitySearch rest

/-- Embedding of `/(?=.*[a-z])(?=.*[A-Z])(?=.*\d)/.test(password)`: some
position satisfies the three lookaheads simultaneously, where the dot does
not cross line terminators. -/
def passwordComplexityTest (password : String) : Bool :=
  complexitySearch password.data

/-- The complexity condition read at spec level: some contiguous stretch
of the password free of line terminators contains at least one lowercase
letter, one uppercase letter and one digit. -/
def SpecComplexity (p : String) : Prop :=
  ∃ pre seg post : List Char,
    p.data = pre ++ seg ++ post
    ∧ (∀ c ∈ seg, isLineTerm c = false)
    ∧ (∃ c ∈ seg, isLowerAZ c = true)
    ∧ (∃ c ∈ seg, isUpperAZ c = true)
    ∧ (∃ c ∈ seg, isDigit09 c = true)

/-- Function `validatePassword` from AuthenticationScreen. -/
def validatePassword (password : String) : Option String :=
  if password = "" then some "Password is required"
  else if password.length < 8 then some "Password must be at least 8 characters"
  else if !passwordComplexityTest password then
    some "Password must contain uppercase, lowercase, and number"
  else none

/-- Embedding of JS `trim()`: strip whitespace from both ends, over the
character list so that it evaluates inside the kernel. -/
def strTrim (s : String) : String :=
  String.mk
    (((s.data.dropWhile Char.isWhitespace).reverse.dropWhile Char.isWhitespace).reverse)

/-- The `'signin' | 'signup'` mode of the authentication screen. -/
inductive AuthMode
  | signin
  | signup
deriving DecidableEq, Repr

/-- Type `FormData` from AuthenticationScreen (all fields read as strings by the
form; missing optional fields behave as the empty string). -/
structure FormData where
  email : String
  password : String
  confirmPassword : String
  firstName : String
  lastName : String
deriving DecidableEq, Repr

/-- Type `FormErrors` from AuthenticationScreen. -/
structure FormErrors where
  email : Option String := none
  password : Option String := none
  confirmPassword : Option String := none
  firstName : Option String := none
  lastName : Option String := none
  general : Option String := none
deriving DecidableEq, Repr

/-- The empty error object `{}`. -/
def noErrors : FormErrors := {}

/-- Function `validateForm` from AuthenticationScreen, as the error object it builds
(the screen stores it with `setErrors`). -/
def validateForm (mode : AuthMode) (formData : FormData) : FormErrors :=
  { email := validateEmail formData.email
  , password := validatePassword formData.password
  , firstName :=
      if mode = AuthMode.signup ∧ strTrim formData.firstName = "" then
        some "First name is required"
      else none
  , lastName :=
      if mode = AuthMode.signup ∧ strTrim formData.lastName = "" then
        some "Last name is required"
      else none
  , confirmPassword :=
      if mode = AuthMode.signup ∧ formData.password ≠ formData.confirmPassword then
        some "Passwords do not match"
      else none
  , general := none }

/-- Test `Object.keys(newErrors).length === 0`: no field carries an error. -/
def FormErrors.isEmpty (e : FormErrors) : Bool :=
  e.email.isNone && e.password.isNone && e.confirmPassword.isNone
    && e.firstName.isNone && e.lastName.isNone && e.general.isNone

/-- The boolean `validateForm` returns to its caller. -/
def validateFormOk (mode : AuthMode) (formData : FormData) : Bool :=
  (validateForm mode formData).isEmpty

/-- The `AuthUser` built by `handleAuthentication` on success:
`needsVerification: userRole === 'alumni'`. -/
def mkAuthUser (id email : String) (userRole : UserRole)
    (firstName lastName : Option String) : AuthUser :=
  { id := id
  , email := email
  , role := userRole
  , firstName := firstName
  , lastName := lastName
  , needsVerification := decide (userRole = UserRole.alumni) }

/-! ## Onboarding flow controller (App.tsx)

The App component keeps boolean visibility flags plus the accumulated
payload; the rendered screen is decided by the `if` chain of its render
function, embedded as `currentStage`. -/

/-- The onboarding stages named by the spec. -/
inductive Stage
  | Splash
  | Welcome
  | RoleSelection
  | Authentication
  | LinkedInVerification
  | MainApp
deriving DecidableEq, Repr

/-- The `useState` cells of the App component. -/
structure AppState where
  isLoading : Bool
  showWelcome : Bool
  showRoleSelection : Bool
  showAuthentication : Bool
  showLinkedInVerification : Bool
  selectedRole : Option UserRole
  authenticatedUser : Option AuthUser
deriving DecidableEq, Repr

/-- The initial values of the App `useState` cells. -/
def initialAppState : AppState :=
  { isLoading := true
  , showWelcome := true
  , showRoleSelection := false
  , showAuthentication := false
  , showLinkedInVerification := false
  , selectedRole := none
  , authenticatedUser := none }

/-- The render-function `if` chain of App: which screen is shown. -/
def currentStage (s : AppState) : Stage :=
  if s.isLoading then Stage.Splash
  else if s.showWelcome then Stage.Welcome
  else if s.showRoleSelection then Stage.RoleSelection
  else if s.showAuthentication && s.selectedRole.isSome then Stage.Authentication
  else if s.showLinkedInVerification && s.authenticatedUser.isSome then Stage.LinkedInVerification
  else Stage.MainApp

/-- Handler `handleSplashComplete`. -/
def handleSplashComplete (s : AppState) : AppState :=
  { s with isLoading := false }

/-- Handler `handleGetStarted`. -/
def handleGetStarted (s : AppState) : AppState :=
  { s with showWelcome := false, showRoleSelection := true }

/-- Handler `handleSkip` of the Welcome screen (same body as `handleGetStarted`). -/
def handleWelcomeSkip (s : AppState) : AppState :=
  { s with showWelcome := false, showRoleSelection := true }

/-- Handler `handleRoleSelected`. -/
def handleRoleSelected (role : UserRole) (s : AppState) : AppState :=
  { s with selectedRole := some role
         , showRoleSelection := false
         , showAuthentication := true }

/-- Handler `handleBackToWelcome`. -/
def handleBackToWelcome (s : AppState) : AppState :=
  { s with showRoleSelection := false, showWelcome := true }

/-- Handler `handleBackToRoleSelection`. -/
def handleBackToRoleSelection (s : AppState) : AppState :=
  { s with showAuthentication := false, showRoleSelection := true }

/-- Handler `handleAuthenticationComplete`: store the user, hide the auth screen, and
show LinkedIn verification only when `user.needsVerification && user.role ===
'alumni'`. -/
def handleAuthenticationComplete (user : AuthUser) (s : AppState) : AppState :=
  let s1 := { s with authenticatedUser := some user, showAuthentication := false }
  if user.needsVerification ∧ user.role = UserRole.alumni then
    { s1 with showLinkedInVerification := true }
  else s1

/-- Handler `handleBackToAuthentication`. -/
def handleBackToAuthentication (s : AppState) : AppState :=
  { s with showLinkedInVerification := false, showAuthentication := true }

/-- Handler `handleLinkedInVerificationComplete(verified, linkedInData?)`: hides the
verification screen unconditionally (both arguments only feed logging). -/
def handleLinkedInVerificationComplete (verified : Bool)
    (linkedInData : Option LinkedInProfile) (s : AppState) : AppState :=
  let _ := verified
  let _ := linkedInData
  { s with showLinkedInVerification := false }

/-- The user-visible events of the flow, with their payloads. -/
inductive AppEvent
  | splashComplete
  | getStarted
  | welcomeSkip
  | roleSelected (role : UserRole)
  | backToWelcome
  | backToRoleSelection
  | authenticationComplete (user : AuthUser)
  | backToAuthentication
  | verificationComplete (verified : Bool) (linkedInData : Option LinkedInProfile)
  | verificationSkip

/-- Dispatch an event to its App handler. The LinkedIn screen's `onSkip`
prop is `() => handleLinkedInVerificationComplete(false)`. -/
def applyEvent : AppEvent → AppState → AppState
  | AppEvent.splashComplete, s => handleSplashComplete s
  | AppEvent.getStarted, s => handleGetStarted s
  | AppEvent.welcomeSkip, s => handleWelcomeSkip s
  | AppEvent.roleSelected r, s => handleRoleSelected r s
  | AppEvent.backToWelcome, s => handleBackToWelcome s
  | AppEvent.backToRoleSelection, s => handleBackToRoleSelection s
  | AppEvent.authenticationComplete u, s => handleAuthenticationComplete u s
  | AppEvent.backToAuthentication, s => handleBackToAuthentication s
  | AppEvent.verificationComplete v d, s => handleLinkedInVerificationComplete v d s
  | AppEvent.verificationSkip, s => handleLinkedInVerificationComplete false none s

/-- The screen whose callbacks can fire a given event: each handler is only
reachable through props of the screen that App currently renders. -/
def eventStage : AppEvent → Stage
  | AppEvent.splashComplete => Stage.Splash
  | AppEvent.getStarted => Stage.Welcome
  | AppEvent.welcomeSkip => Stage.Welcome
  | AppEvent.roleSelected _ => Stage.RoleSelection
  | AppEvent.backToWelcome => Stage.RoleSelection
  | AppEvent.authenticationComplete _ => Stage.Authentication
  | AppEvent.backToRoleSelection => Stage.Authentication
  | AppEvent.backToAuthentication => Stage.LinkedInVerification
  | AppEvent.verificationComplete _ _ => Stage.LinkedInVerification
  | AppEvent.verificationSkip => Stage.LinkedInVerification

/-- App states reachable from the initial state when every event is fired
from the screen that owns it. -/
inductive Reachable : AppState → Prop
  | init : Reachable initialAppState
  | step {s : AppState} (e : AppEvent) (hr : Reachable s)
      (hg : currentStage s = eventStage e) : Reachable (applyEvent e s)

/-- The flag discipline of reachable App states: exactly the six screen
configurations, with the payload guarantees of stages Authentication and
LinkedInVerification. -/
def StageShape (s : AppState) : Prop :=
  (s.isLoading = true ∧ s.showWelcome = true ∧ s.showRoleSelection = false
    ∧ s.showAuthentication = false ∧ s.showLinkedInVerification = false)
  ∨ (s.isLoading = false ∧ s.showWelcome = true ∧ s.showRoleSelection = false
    ∧ s.showAuthentication = false ∧ s.showLinkedInVerification = false)
  ∨ (s.isLoading = false ∧ s.showWelcome = false ∧ s.showRoleSelection = true
    ∧ s.showAuthentication = false ∧ s.showLinkedInVerification = false)
  ∨ (s.isLoading = false ∧ s.showWelcome = false ∧ s.showRoleSelection = false
    ∧ s.showAuthentication = true ∧ s.showLinkedInVerification = false
    ∧ s.selectedRole.isSome = true)
  ∨ (s.isLoading = false ∧ s.showWelcome = false ∧ s.showRoleSelection = false
    ∧ s.showAuthentication = false ∧ s.showLinkedInVerification = true
    ∧ s.selectedRole.isSome = true ∧ s.authenticatedUser.isSome = true)
  ∨ (s.isLoading = false ∧ s.showWelcome = false ∧ s.showRoleSelection = false
    ∧ s.showAuthentication = false ∧ s.showLinkedInVerification = false)

/-! ## Mock LinkedIn verification pipeline (LinkedInVerificationScreen)

`handleLinkedInConnect` sequences: auth URL + anti-replay state, OAuth
redirect, token exchange, profile fetch, eligibility evaluation, and finally
the `onVerificationComplete` callback (fired automatically only on success).
We embed the pipeline as a pure function from the OAuth redirect outcome to
a trace recording which steps ran and which callback fired. -/

/-- Outcome type of `AuthSession.startAsync`. -/
inductive OAuthResultType
  | success
  | cancel
  | dismiss
  | error
deriving DecidableEq, Repr

/-- The OAuth redirect result: its type and the returned params. -/
structure OAuthResult where
  type : OAuthResultType
  code : Option String
  state : Option String
deriving DecidableEq, Repr

/-- The mock education list returned by `fetchLinkedInProfile`. -/
def mockEducations : List LinkedInEducation :=
  [ { schoolName := "Norfolk State University"
    , degree := some "Bachelor of Science"
    , fieldOfStudy := some "Computer Science"
    , startDate := some { year := 2011, month := none }
    , endDate := some { year := 2015, month := none } }
  , { schoolName := "Norfolk State University"
    , degree := some "Master of Business Administration"
    , fieldOfStudy := some "Business Administration"
    , startDate := some { year := 2016, month := none }
    , endDate := some { year := 2018, month := none } } ]

/-- Function `fetchLinkedInProfile` (mock): the profile built for the given user.
The `'linkedin_' + Date.now()` id is modelled with a fixed token since the
timestamp never influences the flow. -/
def fetchLinkedInProfile (user : AuthUser) : LinkedInProfile :=
  { id := "linkedin_mock"
  , firstName := user.firstName.getD "Sarah"
  , lastName := user.lastName.getD "Johnson"
  , email := user.email
  , education := mockEducations
  , profilePicture := some "mock://profile.jpg" }

/-- Trace of one run of `handleLinkedInConnect`: which pipeline steps after
the consent/redirect step executed, whether the run was a cancellation or a
failure, and the `onVerificationComplete` invocation it fired automatically
(on an unverified result the screen only shows an alert and waits for the
user, so no callback fires from the pipeline itself). -/
structure ConnectTrace where
  tokenExchangeRan : Bool
  profileFetchRan : Bool
  eligibilityRan : Bool
  completion : Option (Bool × LinkedInProfile)
  cancelled : Bool
  failed : Bool
deriving DecidableEq, Repr

/-- Handler `handleLinkedInConnect`: the success branch requires `result.type ===
'success'`, a present `code`, and the anti-replay `state` to equal the one
minted by `createAuthURL`; the `cancel` branch only announces and runs no
further step; anything else is the thrown/caught failure path. -/
def handleLinkedInConnect (user : AuthUser) (expectedState : String)
    (result : OAuthResult) (currentYear : Nat) : ConnectTrace :=
  if result.type = OAuthResultType.success ∧ result.code.isSome
      ∧ result.state = some expectedState then
    let profile := fetchLinkedInProfile user
    let isVerified := verifyNorfolkStateAlumni profile currentYear
    { tokenExchangeRan := true
    , profileFetchRan := true
    , eligibilityRan := true
    , completion := if isVerified then some (true, profile) else none
    , cancelled := false
    , failed := false }
  else if result.type = OAuthResultType.cancel then
    { tokenExchangeRan := false, profileFetchRan := false, eligibilityRan := false
    , completion := none, cancelled := true, failed := false }
  else
    { tokenExchangeRan := false, profileFetchRan := false, eligibilityRan := false
    , completion := none, cancelled := false, failed := true }

/-- The effect of one `handleLinkedInConnect` run on the App state: only a
fired `onVerificationComplete` callback reaches the flow controller. -/
def appStateAfterConnect (s : AppState) (t : ConnectTrace) : AppState :=
  match t.completion with
  | some (v, p) => handleLinkedInVerificationComplete v (some p) s
  | none => s

/-! ## Concrete states and data used by the theorems -/

/-- An education record at an institution that is not Norfolk State
University in any sense, whose lowercased name nevertheless contains the
lowercased variant "NSU" as an interior substring. -/
def unsungEducation : LinkedInEducation :=
  { schoolName := "Unsung University"
  , fieldOfStudy := none
  , degree := none
  , startDate := none
  , endDate := some { year := 2010, month := none } }

/-- The spec's e-mail pattern read off its words: somewhere in the string
occurs `<non-space>+ '@' <non-space>+ '.' <non-space>+` (JS `test` searches
for a match anywhere, so arbitrary text may surround it). -/
def SpecEmailMatch (s : String) : Prop :=
  ∃ pre a b c post : List Char,
    s.data = pre ++ a ++ '@' :: (b ++ '.' :: (c ++ post))
    ∧ a ≠ [] ∧ b ≠ [] ∧ c ≠ []
    ∧ (∀ x ∈ a, nonSp x = true)
    ∧ (∀ x ∈ b, nonSp x = true)
    ∧ (∀ x ∈ c, nonSp x = true)

/-- The Authentication-stage state reached by completing the splash, tapping
Get Started, and selecting the alumni role. -/
def authStateAlumni : AppState :=
  applyEvent (AppEvent.roleSelected UserRole.alumni)
    (applyEvent AppEvent.getStarted
      (applyEvent AppEvent.splashComplete initialAppState))

/-- The alumni user produced by the mock authentication for the alumni
role. -/
def alumniUser : AuthUser :=
  mkAuthUser "user_1" "sarah@nsu.edu" UserRole.alumni none none

/-- The LinkedInVerification-stage state reached by the alumni path. -/
def linkedInStateAlumni : AppState :=
  applyEvent (AppEvent.authenticationComplete alumniUser) authStateAlumni

/-- An `AuthUser` with the alumni role whose `needsVerification` flag is
false (no such user is produced by the mock authentication, but the type
admits it). -/
def badAlumnus : AuthUser :=
  { id := "u1", email := "e@x.co", role := UserRole.alumni
  , firstName := none, lastName := none, needsVerification := false }

/-- The cancelled OAuth redirect result. -/
def cancelResult : OAuthResult :=
  { type := OAuthResultType.cancel, code := none, state := none }


/-! ## Theorems: alumni eligibility -/

/-- The graduation check of `verifyNorfolkStateAlumni` holds iff the end
date is present and strictly earlier than the current year. -/
theorem endDateCheck_iff (o : Option YearMonth) (y : Nat) :
    (match o with
     | some endDate => decide (endDate.year < y)
     | none => false) = true ↔ ∃ d, o = some d ∧ d.year < y := by
  cases o <;> simp

/-- C1: the alumni eligibility check returns true iff at least one record
both matches some institution variant (case-insensitive substring match)
and has a present end year strictly below the current year; it returns
false on the empty record list, and a record without an end year never
qualifies, even on its own. -/
theorem isEligibleAlumnus_correct (records : List LinkedInEducation)
    (institutionVariants : List String) (currentYear : Nat) :
    (isEligibleAlumnus records institutionVariants currentYear = true ↔
      ∃ edu ∈ records,
        (∃ v ∈ institutionVariants,
          strIncludes (strToLower edu.schoolName) (strToLower v) = true) ∧
        ∃ d, edu.endDate = some d ∧ d.year < currentYear)
    ∧ isEligibleAlumnus [] institutionVariants currentYear = false
    ∧ ∀ edu : LinkedInEducation, edu.endDate = none →
        isEligibleAlumnus [edu] institutionVariants currentYear = false := by
  refine ⟨?_, rfl, ?_⟩
  · simp [isEligibleAlumnus, List.any_eq_true, Bool.and_eq_true, endDateCheck_iff]
  · intro edu h
    simp [isEligibleAlumnus, h]

/-- Closed instance of `isEligibleAlumnus_correct`: the empty record list is
rejected, and a Norfolk State record with no end year is rejected. -/
theorem isEligibleAlumnus_correct_witness :
    isEligibleAlumnus [] norfolkStateVariations 2024 = false
    ∧ isEligibleAlumnus
        [{ schoolName := "Norfolk State University", fieldOfStudy := none
         , degree := none, startDate := none, endDate := none }]
        norfolkStateVariations 2024 = false :=
  ⟨(isEligibleAlumnus_correct [] norfolkStateVariations 2024).2.1,
   (isEligibleAlumnus_correct
      [{ schoolName := "Norfolk State University", fieldOfStudy := none
       , degree := none, startDate := none, endDate := none }]
      norfolkStateVariations 2024).2.2 _ rfl⟩

/-- C8: the eligibility check is a logical OR over the records, so any
permutation of the record list yields the same boolean, and the function is
deterministic (two runs on identical inputs agree). -/
theorem isEligibleAlumnus_perm_invariant (records₁ records₂ : List LinkedInEducation)
    (variants : List String) (currentYear : Nat) (hp : records₁.Perm records₂) :
    isEligibleAlumnus records₁ variants currentYear
      = isEligibleAlumnus records₂ variants currentYear
    ∧ isEligibleAlumnus records₁ variants currentYear
      = isEligibleAlumnus records₁ variants currentYear := by
  refine ⟨?_, rfl⟩
  rw [Bool.eq_iff_iff]
  simp only [isEligibleAlumnus, List.any_eq_true]
  constructor
  · rintro ⟨edu, hm, hq⟩
    exact ⟨edu, hp.mem_iff.mp hm, hq⟩
  · rintro ⟨edu, hm, hq⟩
    exact ⟨edu, hp.mem_iff.mpr hm, hq⟩

/-- Closed instance of `isEligibleAlumnus_perm_invariant`: swapping the two
mock education records does not change the verdict. -/
theorem isEligibleAlumnus_perm_invariant_witness :
    isEligibleAlumnus
      [{ schoolName := "Hampton University", fieldOfStudy := none, degree := none
       , startDate := none, endDate := some { year := 2015, month := none } }
      , { schoolName := "Norfolk State University", fieldOfStudy := none, degree := none
        , startDate := none, endDate := some { year := 2015, month := none } }]
      norfolkStateVariations 2024
    = isEligibleAlumnus
      [{ schoolName := "Norfolk State University", fieldOfStudy := none, degree := none
       , startDate := none, endDate := some { year := 2015, month := none } }
      , { schoolName := "Hampton University", fieldOfStudy := none, degree := none
        , startDate := none, endDate := some { year := 2015, month := none } }]
      norfolkStateVariations 2024 :=
  (isEligibleAlumnus_perm_invariant _ _ norfolkStateVariations 2024
    (List.Perm.swap _ _ _)).1

/-- C9: the variant match ignores word boundaries: a graduate of "Unsung
University" (end year 2010, current year 2024) passes the eligibility check
because "unsung university" contains "nsu", even though the name contains
no Norfolk State variant as a word and is not a Norfolk State name. -/
theorem isEligibleAlumnus_substring_false_positive :
    isEligibleAlumnus [unsungEducation] norfolkStateVariations 2024 = true
    ∧ strIncludes (strToLower "Unsung University") (strToLower "NSU") = true
    ∧ strIncludes (strToLower "Unsung University") (strToLower "Norfolk State") = false
    ∧ unsungEducation.schoolName ≠ "Norfolk State University" := by
  refine ⟨by decide, by decide, by decide, by decide⟩

/-! ## Theorems: e-mail validation -/

/-- Characterisation of `matchDotTail`: a possibly-empty non-space run, a
literal dot, and one non-space character. -/
theorem matchDotTail_iff (l : List Char) :
    matchDotTail l = true ↔
      ∃ b y post, l = b ++ '.' :: y :: post
        ∧ (∀ x ∈ b, nonSp x = true) ∧ nonSp y = true := by
  induction l with
  | nil =>
    simp only [matchDotTail]
    constructor
    · intro h; cases h
    · rintro ⟨b, y, post, heq, -, -⟩
      cases b <;> simp at heq
  | cons c rest ih =>
    cases rest with
    | nil =>
      simp only [matchDotTail]
      constructor
      · intro h; cases h
      · rintro ⟨b, y, post, heq, -, -⟩
        rcases b with _ | ⟨x, b'⟩ <;> simp at heq
    | cons d rest' =>
      constructor
      · intro h
        simp only [matchDotTail, Bool.or_eq_true, Bool.and_eq_true] at h
        rcases h with ⟨hc, hd⟩ | ⟨hc, hm⟩
        · have hc' : c = '.' := by simpa using hc
          exact ⟨[], d, rest', by simp [hc'], by simp, hd⟩
        · obtain ⟨b, y, post, heq, hb, hy⟩ := ih.mp hm
          refine ⟨c :: b, y, post, by simp [heq], ?_, hy⟩
          intro x hx
          rcases List.mem_cons.mp hx with h1 | h2
          · exact h1 ▸ hc
          · exact hb x h2
      · rintro ⟨b, y, post, heq, hb, hy⟩
        rcases b with _ | ⟨x, b'⟩
        · simp only [List.nil_append] at heq
          injection heq with h1 h2
          injection h2 with h3 h4
          subst h1; subst h3
          simp [matchDotTail, hy]
        · simp only [List.cons_append] at heq
          injection heq with h1 h2
          have hm : matchDotTail (d :: rest') = true := by
            rw [h2] at ih ⊢
            exact ih.mpr ⟨b', y, post, rfl,
              fun z hz => hb z (List.mem_cons_of_mem _ hz), hy⟩
          have hcx : nonSp c = true := h1 ▸ hb x (List.mem_cons_self _ _)
          show matchDotTail (c :: d :: rest') = true
          simp only [matchDotTail, Bool.or_eq_true, Bool.and_eq_true]
          exact Or.inr ⟨hcx, hm⟩

/-- Characterisation of `matchAfterAt` (the `\S+\.\S+` after the at sign):
a nonempty non-space run, a literal dot, and one non-space character. -/
theorem matchAfterAt_iff (l : List Char) :
    matchAfterAt l = true ↔
      ∃ b y post, l = b ++ '.' :: y :: post ∧ b ≠ []
        ∧ (∀ x ∈ b, nonSp x = true) ∧ nonSp y = true := by
  cases l with
  | nil =>
    simp only [matchAfterAt]
    constructor
    · intro h; cases h
    · rintro ⟨b, y, post, heq, -, -, -⟩
      cases b <;> simp at heq
  | cons c rest =>
    simp only [matchAfterAt, Bool.and_eq_true, matchDotTail_iff]
    constructor
    · rintro ⟨hc, b, y, post, heq, hb, hy⟩
      refine ⟨c :: b, y, post, by simp [heq], by simp, ?_, hy⟩
      intro x hx
      rcases List.mem_cons.mp hx with h1 | h2
      · exact h1 ▸ hc
      · exact hb x h2
    · rintro ⟨b, y, post, heq, hbne, hb, hy⟩
      rcases b with _ | ⟨x, b'⟩
      · exact absurd rfl hbne
      simp only [List.cons_append] at heq
      injection heq with h1 h2
      refine ⟨h1 ▸ hb x (List.mem_cons_self _ _), b', y, post, h2,
        fun z hz => hb z (List.mem_cons_of_mem _ hz), hy⟩

/-- Characterisation of `matchAtTail`: a possibly-empty non-space run, a
literal at sign, and a `matchAfterAt` tail. -/
theorem matchAtTail_iff (l : List Char) :
    matchAtTail l = true ↔
      ∃ a rest, l = a ++ '@' :: rest ∧ (∀ x ∈ a, nonSp x = true)
        ∧ matchAfterAt rest = true := by
  induction l with
  | nil =>
    simp only [matchAtTail]
    constructor
    · intro h; cases h
    · rintro ⟨a, rest, heq, -, -⟩
      cases a <;> simp at heq
  | cons c t ih =>
    constructor
    · intro h
      simp only [matchAtTail, Bool.or_eq_true, Bool.and_eq_true] at h
      rcases h with ⟨hc, hm⟩ | ⟨hc, hm⟩
      · have hc' : c = '@' := by simpa using hc
        exact ⟨[], t, by simp [hc'], by simp, hm⟩
      · obtain ⟨a, rest, heq, ha, hm'⟩ := ih.mp hm
        refine ⟨c :: a, rest, by simp [heq], ?_, hm'⟩
        intro x hx
        rcases List.mem_cons.mp hx with h1 | h2
        · exact h1 ▸ hc
        · exact ha x h2
    · rintro ⟨a, rest, heq, ha, hm⟩
      rcases a with _ | ⟨x, a'⟩
      · simp only [List.nil_append] at heq
        injection heq with h1 h2
        subst h1
        show matchAtTail ('@' :: t) = true
        simp only [matchAtTail, Bool.or_eq_true, Bool.and_eq_true]
        exact Or.inl ⟨by simp, h2 ▸ hm⟩
      · simp only [List.cons_append] at heq
        injection heq with h1 h2
        show matchAtTail (c :: t) = true
        simp only [matchAtTail, Bool.or_eq_true, Bool.and_eq_true]
        refine Or.inr ⟨h1 ▸ ha x (List.mem_cons_self _ _),
          ih.mpr ⟨a', rest, h2, fun z hz => ha z (List.mem_cons_of_mem _ hz), hm⟩⟩

/-- Characterisation of `emailSearch`: some position starts a non-space
character followed by a `matchAtTail` match. -/
theorem emailSearch_iff (l : List Char) :
    emailSearch l = true ↔
      ∃ pre ch rest, l = pre ++ ch :: rest ∧ nonSp ch = true
        ∧ matchAtTail rest = true := by
  induction l with
  | nil =>
    simp only [emailSearch]
    constructor
    · intro h; cases h
    · rintro ⟨pre, ch, rest, heq, -, -⟩
      cases pre <;> simp at heq
  | cons c t ih =>
    constructor
    · intro h
      simp only [emailSearch, Bool.or_eq_true, Bool.and_eq_true] at h
      rcases h with ⟨hc, hm⟩ | hm
      · exact ⟨[], c, t, by simp, hc, hm⟩
      · obtain ⟨pre, ch, rest, heq, hch, hm'⟩ := ih.mp hm
        exact ⟨c :: pre, ch, rest, by simp [heq], hch, hm'⟩
    · rintro ⟨pre, ch, rest, heq, hch, hm⟩
      rcases pre with _ | ⟨x, pre'⟩
      · simp only [List.nil_append] at heq
        injection heq with h1 h2
        subst h1
        show emailSearch (c :: t) = true
        simp only [emailSearch, Bool.or_eq_true, Bool.and_eq_true]
        exact Or.inl ⟨hch, h2 ▸ hm⟩
      · simp only [List.cons_append] at heq
        injection heq with h1 h2
        show emailSearch (c :: t) = true
        simp only [emailSearch, Bool.or_eq_true, Bool.and_eq_true]
        exact Or.inr (ih.mpr ⟨pre', ch, rest, h2, hch, hm⟩)

/-- The embedded regex test agrees with the spec's pattern: a match of
`<non-space>+ '@' <non-space>+ '.' <non-space>+` occurs somewhere in the
string. -/
theorem emailRegexTest_iff_specMatch (s : String) :
    emailRegexTest s = true ↔ SpecEmailMatch s := by
  unfold emailRegexTest SpecEmailMatch
  rw [emailSearch_iff]
  constructor
  · rintro ⟨pre, ch, rest, heq, hch, hm⟩
    rw [matchAtTail_iff] at hm
    obtain ⟨a, rest2, heq2, ha, hm2⟩ := hm
    rw [matchAfterAt_iff] at hm2
    obtain ⟨b, y, post, heq3, hbne, hb, hy⟩ := hm2
    refine ⟨pre, ch :: a, b, [y], post, ?_, by simp, hbne, by simp, ?_, hb, ?_⟩
    · rw [heq, heq2, heq3]; simp
    · intro x hx
      rcases List.mem_cons.mp hx with h1 | h2
      · exact h1 ▸ hch
      · exact ha x h2
    · intro x hx
      rcases List.mem_cons.mp hx with h1 | h2
      · exact h1 ▸ hy
      · simp at h2
  · rintro ⟨pre, a, b, c, post, heq, hane, hbne, hcne, ha, hb, hc⟩
    rcases a with _ | ⟨x, a'⟩
    · exact absurd rfl hane
    rcases c with _ | ⟨y, c'⟩
    · exact absurd rfl hcne
    refine ⟨pre, x, a' ++ '@' :: (b ++ '.' :: (y :: (c' ++ post))),
      ?_, ha x (List.mem_cons_self _ _), ?_⟩
    · rw [heq]; simp
    · rw [matchAtTail_iff]
      refine ⟨a', b ++ '.' :: y :: (c' ++ post), rfl,
        fun z hz => ha z (List.mem_cons_of_mem _ hz), ?_⟩
      rw [matchAfterAt_iff]
      exact ⟨b, y, c' ++ post, rfl, hbne, hb, hc y (List.mem_cons_self _ _)⟩

/-- C3: `validateEmail` returns the Required error exactly on the empty
string, the InvalidFormat error exactly on nonempty strings containing no
match of `<non-space>+@<non-space>+.<non-space>+`, and no error exactly on
strings containing such a match. -/
theorem validateEmail_correct (s : String) :
    (validateEmail s = some "Email is required" ↔ s = "")
    ∧ (validateEmail s = some "Please enter a valid email" ↔
        s ≠ "" ∧ ¬ SpecEmailMatch s)
    ∧ (validateEmail s = none ↔ SpecEmailMatch s) := by
  have hmatch := emailRegexTest_iff_specMatch s
  by_cases hs : s = ""
  · subst hs
    have hno : ¬ SpecEmailMatch "" := by
      intro h
      have h1 : emailRegexTest "" = true := hmatch.mpr h
      exact absurd h1 (by decide)
    refine ⟨by simp [validateEmail], ?_, ?_⟩
    · simp only [validateEmail, if_pos rfl]
      constructor
      · intro h; exact absurd (Option.some.inj h) (by decide)
      · rintro ⟨h, -⟩; exact absurd rfl h
    · simp only [validateEmail, if_pos rfl]
      constructor
      · intro h; cases h
      · intro h; exact absurd h hno
  · cases htest : emailRegexTest s with
    | false =>
      have hnom : ¬ SpecEmailMatch s := by
        intro h
        rw [hmatch.mpr h] at htest
        cases htest
      refine ⟨?_, ?_, ?_⟩
      · simp only [validateEmail, if_neg hs, htest]
        constructor
        · intro h; exact absurd (Option.some.inj h) (by decide)
        · intro h; exact absurd h hs
      · simp [validateEmail, hs, htest, hnom]
      · simp only [validateEmail, if_neg hs, htest]
        constructor
        · intro h; cases h
        · intro h; exact absurd h hnom
    | true =>
      have hm : SpecEmailMatch s := hmatch.mp htest
      refine ⟨?_, ?_, ?_⟩
      · simp [validateEmail, hs, htest]
      · simp [validateEmail, hs, htest, hm]
      · simp [validateEmail, hs, htest, hm]

/-! ## Theorems: password and form validation -/

/-- If every element of the first list satisfies the predicate,
`takeWhile` walks through it into the second list. -/
theorem takeWhile_append_all {p : Char → Bool} (l₁ l₂ : List Char)
    (h : ∀ c ∈ l₁, p c = true) :
    (l₁ ++ l₂).takeWhile p = l₁ ++ l₂.takeWhile p := by
  induction l₁ with
  | nil => simp
  | cons x xs ih =>
    have hx : p x = true := h x (List.mem_cons_self _ _)
    simp [List.takeWhile_cons, hx,
      ih (fun c hc => h c (List.mem_cons_of_mem _ hc))]

/-- `complexitySearch` succeeds iff the lookahead conjunction succeeds at
some start position. -/
theorem complexitySearch_iff (l : List Char) :
    complexitySearch l = true ↔
      ∃ pre rest, l = pre ++ rest ∧ complexityAt rest = true := by
  induction l with
  | nil =>
    constructor
    · intro h; exact absurd h (by decide)
    · rintro ⟨pre, rest, heq, hr⟩
      rcases pre with _ | ⟨x, pre'⟩
      · rw [List.nil_append] at heq
        rw [← heq] at hr
        exact absurd hr (by decide)
      · simp at heq
  | cons c t ih =>
    simp only [complexitySearch, Bool.or_eq_true]
    constructor
    · rintro (h | h)
      · exact ⟨[], c :: t, rfl, h⟩
      · obtain ⟨pre, rest, heq, hr⟩ := ih.mp h
        exact ⟨c :: pre, rest, by simp [heq], hr⟩
    · rintro ⟨pre, rest, heq, hr⟩
      rcases pre with _ | ⟨x, pre'⟩
      · rw [List.nil_append] at heq
        exact Or.inl (heq.symm ▸ hr)
      · simp only [List.cons_append] at heq
        injection heq with h1 h2
        exact Or.inr (ih.mpr ⟨pre', rest, h2, hr⟩)

/-- `complexityAt` succeeds iff a line-terminator-free leading stretch
holds the three classes. -/
theorem complexityAt_iff (l : List Char) :
    complexityAt l = true ↔
      ∃ seg post, l = seg ++ post ∧ (∀ c ∈ seg, isLineTerm c = false)
        ∧ (∃ c ∈ seg, isLowerAZ c = true) ∧ (∃ c ∈ seg, isUpperAZ c = true)
        ∧ (∃ c ∈ seg, isDigit09 c = true) := by
  constructor
  · intro h
    simp only [complexityAt, Bool.and_eq_true, List.any_eq_true] at h
    obtain ⟨⟨hl, hu⟩, hd⟩ := h
    refine ⟨dotStretch l, l.dropWhile (fun c => !isLineTerm c), ?_, ?_, hl, hu, hd⟩
    · exact (List.takeWhile_append_dropWhile _ _).symm
    · intro c hc
      have := List.mem_takeWhile_imp hc
      simpa using this
  · rintro ⟨seg, post, heq, hseg, hl, hu, hd⟩
    subst heq
    have hstretch : dotStretch (seg ++ post) = seg ++ dotStretch post := by
      unfold dotStretch
      exact takeWhile_append_all seg post (fun c hc => by simp [hseg c hc])
    simp only [complexityAt, Bool.and_eq_true, List.any_eq_true, hstretch]
    obtain ⟨cl, hcl, hcl2⟩ := hl
    obtain ⟨cu, hcu, hcu2⟩ := hu
    obtain ⟨cd, hcd, hcd2⟩ := hd
    exact ⟨⟨⟨cl, List.mem_append_left _ hcl, hcl2⟩,
            ⟨cu, List.mem_append_left _ hcu, hcu2⟩⟩,
           ⟨cd, List.mem_append_left _ hcd, hcd2⟩⟩

/-- The embedded lookahead test agrees with the spec-level reading: some
contiguous line-terminator-free stretch of the password holds the three
classes. -/
theorem passwordComplexityTest_iff_spec (p : String) :
    passwordComplexityTest p = true ↔ SpecComplexity p := by
  unfold passwordComplexityTest SpecComplexity
  rw [complexitySearch_iff]
  constructor
  · rintro ⟨pre, rest, heq, hr⟩
    rw [complexityAt_iff] at hr
    obtain ⟨seg, post, heq2, hseg, hl, hu, hd⟩ := hr
    exact ⟨pre, seg, post, by rw [heq, heq2, List.append_assoc], hseg, hl, hu, hd⟩
  · rintro ⟨pre, seg, post, heq, hseg, hl, hu, hd⟩
    refine ⟨pre, seg ++ post, by rw [heq, List.append_assoc], ?_⟩
    rw [complexityAt_iff]
    exact ⟨seg, post, rfl, hseg, hl, hu, hd⟩

/-- C4 counterexample: the password "aB\n1cdefgh" has length at least 8
and contains a lowercase letter, an uppercase letter and a digit, yet
`validatePassword` reports the WeakComplexity error: the dot of the JS
lookaheads does not cross the newline, and neither line holds all three
classes. -/
theorem validatePassword_classes_anywhere_fails :
    8 ≤ ("aB\n1cdefgh" : String).length
    ∧ (∃ c ∈ ("aB\n1cdefgh" : String).data, isLowerAZ c = true)
    ∧ (∃ c ∈ ("aB\n1cdefgh" : String).data, isUpperAZ c = true)
    ∧ (∃ c ∈ ("aB\n1cdefgh" : String).data, isDigit09 c = true)
    ∧ validatePassword "aB\n1cdefgh"
        = some "Password must contain uppercase, lowercase, and number" := by
  decide

/-- C4 amended: `validatePassword` returns Required on the empty password
and TooShort on nonempty passwords shorter than 8; for passwords of length
at least 8 it returns no error iff some contiguous stretch of the password
free of line terminators contains at least one lowercase letter, one
uppercase letter and one digit (the dot of the JS lookaheads does not
cross line terminators), and otherwise returns the WeakComplexity error;
in particular a password of length at least 8 lacking one of the three
classes outright still produces WeakComplexity. -/
theorem validatePassword_correct (p : String) :
    (p = "" → validatePassword p = some "Password is required")
    ∧ (p ≠ "" → p.length < 8 →
        validatePassword p = some "Password must be at least 8 characters")
    ∧ (8 ≤ p.length → (validatePassword p = none ↔ SpecComplexity p))
    ∧ (8 ≤ p.length → ¬ SpecComplexity p →
        validatePassword p = some "Password must contain uppercase, lowercase, and number")
    ∧ (8 ≤ p.length →
        ¬((∃ c ∈ p.data, isLowerAZ c = true) ∧ (∃ c ∈ p.data, isUpperAZ c = true)
            ∧ (∃ c ∈ p.data, isDigit09 c = true)) →
        validatePassword p = some "Password must contain uppercase, lowercase, and number") := by
  have hweak : 8 ≤ p.length → ¬ SpecComplexity p →
      validatePassword p = some "Password must contain uppercase, lowercase, and number" := by
    intro hlen hmiss
    have hne : p ≠ "" := by
      intro h; subst h; exact absurd hlen (by decide)
    have hnlt : ¬ p.length < 8 := by omega
    cases htest : passwordComplexityTest p with
    | false => simp [validatePassword, hne, hnlt, htest]
    | true => exact absurd ((passwordComplexityTest_iff_spec p).mp htest) hmiss
  refine ⟨?_, ?_, ?_, hweak, ?_⟩
  · intro h; subst h; rfl
  · intro hne hlt
    simp [validatePassword, hne, hlt]
  · intro hlen
    have hne : p ≠ "" := by
      intro h; subst h; exact absurd hlen (by decide)
    have hnlt : ¬ p.length < 8 := by omega
    cases htest : passwordComplexityTest p with
    | false =>
      simp only [validatePassword, if_neg hne, if_neg hnlt, htest]
      constructor
      · intro h; cases h
      · intro h
        have h2 := (passwordComplexityTest_iff_spec p).mpr h
        rw [htest] at h2
        cases h2
    | true =>
      simp only [validatePassword, if_neg hne, if_neg hnlt, htest]
      simp [(passwordComplexityTest_iff_spec p).mp htest]
  · intro hlen hmiss
    refine hweak hlen ?_
    rintro ⟨pre, seg, post, heq, hseg, hl, hu, hd⟩
    refine hmiss ?_
    have hsub : ∀ c ∈ seg, c ∈ p.data := by
      intro c hc
      rw [heq]
      exact List.mem_append_left _ (List.mem_append_right _ hc)
    obtain ⟨cl, hcl, hcl2⟩ := hl
    obtain ⟨cu, hcu, hcu2⟩ := hu
    obtain ⟨cd, hcd, hcd2⟩ := hd
    exact ⟨⟨cl, hsub cl hcl, hcl2⟩, ⟨cu, hsub cu hcu, hcu2⟩,
           ⟨cd, hsub cd hcd, hcd2⟩⟩

/-- Closed instances of `validatePassword_correct`: one concrete password
per branch. -/
theorem validatePassword_correct_witness :
    validatePassword "" = some "Password is required"
    ∧ validatePassword "abc" = some "Password must be at least 8 characters"
    ∧ validatePassword "Spartan1" = none
    ∧ validatePassword "spartans"
        = some "Password must contain uppercase, lowercase, and number" :=
  ⟨(validatePassword_correct "").1 rfl,
   (validatePassword_correct "abc").2.1 (by decide) (by decide),
   ((validatePassword_correct "Spartan1").2.2.1 (by decide)).mpr
     ⟨[], "Spartan1".data, [], by simp, by decide, by decide, by decide, by decide⟩,
   (validatePassword_correct "spartans").2.2.2.2 (by decide) (by decide)⟩

/-- C10: the checks of `validatePassword` apply in a fixed precedence
order: the empty password yields Required, every nonempty password shorter
than 8 yields TooShort regardless of its character classes, and the
WeakComplexity error only ever arises for passwords of length at least 8. -/
theorem validatePassword_precedence (p : String) :
    validatePassword "" = some "Password is required"
    ∧ (p ≠ "" → p.length < 8 →
        validatePassword p = some "Password must be at least 8 characters")
    ∧ (validatePassword p = some "Password must contain uppercase, lowercase, and number"
        → 8 ≤ p.length ∧ p ≠ "") := by
  refine ⟨rfl, ?_, ?_⟩
  · intro hne hlt
    simp [validatePassword, hne, hlt]
  · intro h
    by_cases hne : p = ""
    · subst hne
      exact absurd (Option.some.inj h) (by decide)
    by_cases hlt : p.length < 8
    · have h2 : validatePassword p = some "Password must be at least 8 characters" := by
        simp [validatePassword, hne, hlt]
      rw [h2] at h
      exact absurd (Option.some.inj h) (by decide)
    · exact ⟨by omega, hne⟩

/-- Closed instances of `validatePassword_precedence`: a short password
lacking no class still reports TooShort, and a weak-complexity report only
happens at length at least 8. -/
theorem validatePassword_precedence_witness :
    validatePassword "aB1" = some "Password must be at least 8 characters"
    ∧ (8 ≤ ("weakpass" : String).length ∧ ("weakpass" : String) ≠ "") :=
  ⟨(validatePassword_precedence "aB1").2.1 (by decide) (by decide),
   (validatePassword_precedence "weakpass").2.2 (by decide)⟩

/-- An error object is reported as success iff it is the empty object. -/
theorem isEmpty_iff_noErrors (e : FormErrors) :
    e.isEmpty = true ↔ e = noErrors := by
  rcases e with ⟨em, pw, cp, fn, ln, ge⟩
  simp [FormErrors.isEmpty, noErrors, Option.isNone_iff_eq_none, FormErrors.mk.injEq,
    and_assoc]

/-- C7: `validateForm` in signup mode reports Required for empty first and
last names and Mismatch when password and confirmPassword differ; its
e-mail and password components are exactly the field validators; it
succeeds iff the error object is empty; and it is pure. -/
theorem validateForm_correct (mode : AuthMode) (fd : FormData) :
    (mode = AuthMode.signup → fd.firstName = "" →
      (validateForm mode fd).firstName = some "First name is required")
    ∧ (mode = AuthMode.signup → fd.lastName = "" →
      (validateForm mode fd).lastName = some "Last name is required")
    ∧ (mode = AuthMode.signup → fd.password ≠ fd.confirmPassword →
      (validateForm mode fd).confirmPassword = some "Passwords do not match")
    ∧ (validateForm mode fd).email = validateEmail fd.email
    ∧ (validateForm mode fd).password = validatePassword fd.password
    ∧ (validateFormOk mode fd = true ↔ validateForm mode fd = noErrors)
    ∧ validateForm mode fd = validateForm mode fd := by
  refine ⟨?_, ?_, ?_, rfl, rfl, isEmpty_iff_noErrors _, rfl⟩
  · intro hm hf
    simp only [validateForm]
    rw [if_pos ⟨hm, by rw [hf]; decide⟩]
  · intro hm hl
    simp only [validateForm]
    rw [if_pos ⟨hm, by rw [hl]; decide⟩]
  · intro hm hps
    simp only [validateForm]
    rw [if_pos ⟨hm, hps⟩]

/-- Closed instance of `validateForm_correct` at a concrete signup form
with empty names and mismatched passwords. -/
theorem validateForm_correct_witness :
    (validateForm AuthMode.signup
      { email := "a@b.cd", password := "Spartan1", confirmPassword := "Spartan2"
      , firstName := "", lastName := "" }).firstName = some "First name is required"
    ∧ (validateForm AuthMode.signup
      { email := "a@b.cd", password := "Spartan1", confirmPassword := "Spartan2"
      , firstName := "", lastName := "" }).lastName = some "Last name is required"
    ∧ (validateForm AuthMode.signup
      { email := "a@b.cd", password := "Spartan1", confirmPassword := "Spartan2"
      , firstName := "", lastName := "" }).confirmPassword
        = some "Passwords do not match" :=
  ⟨(validateForm_correct AuthMode.signup _).1 rfl rfl,
   (validateForm_correct AuthMode.signup _).2.1 rfl rfl,
   (validateForm_correct AuthMode.signup _).2.2.1 rfl (by decide)⟩

/-! ## Theorems: onboarding state machine -/

/-- A reachable state rendering the Splash screen has the initial flag
configuration. -/
theorem shape_at_splash {s : AppState} (hs : StageShape s)
    (hg : currentStage s = Stage.Splash) :
    s.isLoading = true ∧ s.showWelcome = true ∧ s.showRoleSelection = false
      ∧ s.showAuthentication = false ∧ s.showLinkedInVerification = false := by
  rcases hs with ⟨h1, h2, h3, h4, h5⟩ | ⟨h1, h2, h3, h4, h5⟩ | ⟨h1, h2, h3, h4, h5⟩
    | ⟨h1, h2, h3, h4, h5, h6⟩ | ⟨h1, h2, h3, h4, h5, h6, h7⟩ | ⟨h1, h2, h3, h4, h5⟩ <;>
    simp_all [currentStage]

/-- A reachable state rendering the Welcome screen has exactly the Welcome
flag configuration. -/
theorem shape_at_welcome {s : AppState} (hs : StageShape s)
    (hg : currentStage s = Stage.Welcome) :
    s.isLoading = false ∧ s.showWelcome = true ∧ s.showRoleSelection = false
      ∧ s.showAuthentication = false ∧ s.showLinkedInVerification = false := by
  rcases hs with ⟨h1, h2, h3, h4, h5⟩ | ⟨h1, h2, h3, h4, h5⟩ | ⟨h1, h2, h3, h4, h5⟩
    | ⟨h1, h2, h3, h4, h5, h6⟩ | ⟨h1, h2, h3, h4, h5, h6, h7⟩ | ⟨h1, h2, h3, h4, h5⟩ <;>
    simp_all [currentStage]

/-- A reachable state rendering the RoleSelection screen has exactly the
RoleSelection flag configuration. -/
theorem shape_at_roleSelection {s : AppState} (hs : StageShape s)
    (hg : currentStage s = Stage.RoleSelection) :
    s.isLoading = false ∧ s.showWelcome = false ∧ s.showRoleSelection = true
      ∧ s.showAuthentication = false ∧ s.showLinkedInVerification = false := by
  rcases hs with ⟨h1, h2, h3, h4, h5⟩ | ⟨h1, h2, h3, h4, h5⟩ | ⟨h1, h2, h3, h4, h5⟩
    | ⟨h1, h2, h3, h4, h5, h6⟩ | ⟨h1, h2, h3, h4, h5, h6, h7⟩ | ⟨h1, h2, h3, h4, h5⟩ <;>
    simp_all [currentStage]

/-- A reachable state rendering the Authentication screen has exactly the
Authentication flag configuration, with a selected role. -/
theorem shape_at_authentication {s : AppState} (hs : StageShape s)
    (hg : currentStage s = Stage.Authentication) :
    s.isLoading = false ∧ s.showWelcome = false ∧ s.showRoleSelection = false
      ∧ s.showAuthentication = true ∧ s.showLinkedInVerification = false
      ∧ s.selectedRole.isSome = true := by
  rcases hs with ⟨h1, h2, h3, h4, h5⟩ | ⟨h1, h2, h3, h4, h5⟩ | ⟨h1, h2, h3, h4, h5⟩
    | ⟨h1, h2, h3, h4, h5, h6⟩ | ⟨h1, h2, h3, h4, h5, h6, h7⟩ | ⟨h1, h2, h3, h4, h5⟩ <;>
    simp_all [currentStage]

/-- A reachable state rendering the LinkedInVerification screen has exactly
the LinkedInVerification flag configuration, with a selected role and an
authenticated user. -/
theorem shape_at_linkedIn {s : AppState} (hs : StageShape s)
    (hg : currentStage s = Stage.LinkedInVerification) :
    s.isLoading = false ∧ s.showWelcome = false ∧ s.showRoleSelection = false
      ∧ s.showAuthentication = false ∧ s.showLinkedInVerification = true
      ∧ s.selectedRole.isSome = true ∧ s.authenticatedUser.isSome = true := by
  rcases hs with ⟨h1, h2, h3, h4, h5⟩ | ⟨h1, h2, h3, h4, h5⟩ | ⟨h1, h2, h3, h4, h5⟩
    | ⟨h1, h2, h3, h4, h5, h6⟩ | ⟨h1, h2, h3, h4, h5, h6, h7⟩ | ⟨h1, h2, h3, h4, h5⟩ <;>
    simp_all [currentStage]

/-- Every reachable App state is in one of the six screen configurations. -/
theorem reachable_shape {s : AppState} (h : Reachable s) : StageShape s := by
  induction h with
  | init => exact Or.inl ⟨rfl, rfl, rfl, rfl, rfl⟩
  | step e hr hg ih =>
    cases e with
    | splashComplete =>
      obtain ⟨hL, hW, hRS, hA, hLI⟩ := shape_at_splash ih hg
      exact Or.inr (Or.inl (by
        simp [applyEvent, handleSplashComplete, hW, hRS, hA, hLI]))
    | getStarted =>
      obtain ⟨hL, hW, hRS, hA, hLI⟩ := shape_at_welcome ih hg
      exact Or.inr (Or.inr (Or.inl (by
        simp [applyEvent, handleGetStarted, hL, hA, hLI])))
    | welcomeSkip =>
      obtain ⟨hL, hW, hRS, hA, hLI⟩ := shape_at_welcome ih hg
      exact Or.inr (Or.inr (Or.inl (by
        simp [applyEvent, handleWelcomeSkip, hL, hA, hLI])))
    | roleSelected r =>
      obtain ⟨hL, hW, hRS, hA, hLI⟩ := shape_at_roleSelection ih hg
      exact Or.inr (Or.inr (Or.inr (Or.inl (by
        simp [applyEvent, handleRoleSelected, hL, hW, hLI]))))
    | backToWelcome =>
      obtain ⟨hL, hW, hRS, hA, hLI⟩ := shape_at_roleSelection ih hg
      exact Or.inr (Or.inl (by
        simp [applyEvent, handleBackToWelcome, hL, hA, hLI]))
    | backToRoleSelection =>
      obtain ⟨hL, hW, hRS, hA, hLI, hRole⟩ := shape_at_authentication ih hg
      exact Or.inr (Or.inr (Or.inl (by
        simp [applyEvent, handleBackToRoleSelection, hL, hW, hLI])))
    | authenticationComplete u =>
      obtain ⟨hL, hW, hRS, hA, hLI, hRole⟩ := shape_at_authentication ih hg
      by_cases hc : (u.needsVerification = true ∧ u.role = UserRole.alumni)
      · refine Or.inr (Or.inr (Or.inr (Or.inr (Or.inl ?_))))
        simp [applyEvent, handleAuthenticationComplete, hc, hL, hW, hRS, hRole]
      · refine Or.inr (Or.inr (Or.inr (Or.inr (Or.inr ?_))))
        simp [applyEvent, handleAuthenticationComplete, hc, hL, hW, hRS, hLI]
    | backToAuthentication =>
      obtain ⟨hL, hW, hRS, hA, hLI, hRole, hUser⟩ := shape_at_linkedIn ih hg
      exact Or.inr (Or.inr (Or.inr (Or.inl (by
        simp [applyEvent, handleBackToAuthentication, hL, hW, hRS, hRole]))))
    | verificationComplete v d =>
      obtain ⟨hL, hW, hRS, hA, hLI, hRole, hUser⟩ := shape_at_linkedIn ih hg
      refine Or.inr (Or.inr (Or.inr (Or.inr (Or.inr ?_))))
      simp [applyEvent, handleLinkedInVerificationComplete, hL, hW, hRS, hA]
    | verificationSkip =>
      obtain ⟨hL, hW, hRS, hA, hLI, hRole, hUser⟩ := shape_at_linkedIn ih hg
      refine Or.inr (Or.inr (Or.inr (Or.inr (Or.inr ?_))))
      simp [applyEvent, handleLinkedInVerificationComplete, hL, hW, hRS, hA]

/-- The state `authStateAlumni` is reachable. -/
theorem authStateAlumni_reachable : Reachable authStateAlumni :=
  Reachable.step (AppEvent.roleSelected UserRole.alumni)
    (Reachable.step AppEvent.getStarted
      (Reachable.step AppEvent.splashComplete Reachable.init rfl) rfl) rfl

/-- The state `linkedInStateAlumni` is reachable. -/
theorem linkedInStateAlumni_reachable : Reachable linkedInStateAlumni :=
  Reachable.step (AppEvent.authenticationComplete alumniUser)
    authStateAlumni_reachable rfl

/-- C2 counterexample: from a reachable Authentication-stage state, firing
`authenticationComplete` with an alumni-role user whose `needsVerification`
is false does not move to LinkedInVerification — the handler tests
`needsVerification && role === 'alumni'`, not the role alone. -/
theorem authenticationComplete_role_only_fails :
    badAlumnus.role = UserRole.alumni
    ∧ Reachable authStateAlumni
    ∧ currentStage authStateAlumni = Stage.Authentication
    ∧ currentStage (handleAuthenticationComplete badAlumnus authStateAlumni)
        ≠ Stage.LinkedInVerification
    ∧ currentStage (handleAuthenticationComplete badAlumnus authStateAlumni)
        = Stage.MainApp :=
  ⟨rfl, authStateAlumni_reachable, rfl, by decide, by decide⟩

/-- C2 amended: from a reachable Authentication-stage state,
`authenticationComplete(u)` moves to LinkedInVerification iff
`u.needsVerification` holds and `u.role` is alumni, and to MainApp
otherwise; users created by the mock authentication have
`needsVerification` true iff their role is alumni, so for them the
transition condition reduces to the role alone. -/
theorem authenticationComplete_correct (s : AppState) (u : AuthUser)
    (hr : Reachable s) (hg : currentStage s = Stage.Authentication) :
    (currentStage (handleAuthenticationComplete u s) = Stage.LinkedInVerification
      ↔ (u.needsVerification = true ∧ u.role = UserRole.alumni))
    ∧ (currentStage (handleAuthenticationComplete u s) = Stage.MainApp
      ↔ ¬(u.needsVerification = true ∧ u.role = UserRole.alumni))
    ∧ (∀ id email r fn ln,
        (mkAuthUser id email r fn ln).needsVerification = true ↔ r = UserRole.alumni)
    ∧ (∀ id email fn ln r,
        currentStage (handleAuthenticationComplete (mkAuthUser id email r fn ln) s)
          = Stage.LinkedInVerification ↔ r = UserRole.alumni) := by
  obtain ⟨hL, hW, hRS, hA, hLI, hRole⟩ :=
    shape_at_authentication (reachable_shape hr) hg
  have key : ∀ v : AuthUser,
      (currentStage (handleAuthenticationComplete v s) = Stage.LinkedInVerification
        ↔ (v.needsVerification = true ∧ v.role = UserRole.alumni))
      ∧ (currentStage (handleAuthenticationComplete v s) = Stage.MainApp
        ↔ ¬(v.needsVerification = true ∧ v.role = UserRole.alumni)) := by
    intro v
    by_cases hc : (v.needsVerification = true ∧ v.role = UserRole.alumni)
    · have hstage :
          currentStage (handleAuthenticationComplete v s) = Stage.LinkedInVerification := by
        simp [handleAuthenticationComplete, if_pos hc, currentStage, hL, hW, hRS]
      simp [hstage, hc]
    · have hstage :
          currentStage (handleAuthenticationComplete v s) = Stage.MainApp := by
        simp [handleAuthenticationComplete, if_neg hc, currentStage, hL, hW, hRS, hLI]
      simp [hstage, hc]
  refine ⟨(key u).1, (key u).2, ?_, ?_⟩
  · intro id email r fn ln
    simp [mkAuthUser]
  · intro id email fn ln r
    rw [(key (mkAuthUser id email r fn ln)).1]
    simp [mkAuthUser]

/-- Closed instance of `authenticationComplete_correct`: the alumni user
created by the mock authentication is routed to LinkedInVerification. -/
theorem authenticationComplete_correct_witness :
    currentStage (handleAuthenticationComplete alumniUser authStateAlumni)
      = Stage.LinkedInVerification :=
  ((authenticationComplete_correct authStateAlumni alumniUser
      authStateAlumni_reachable rfl).2.2.2
    "user_1" "sarah@nsu.edu" none none UserRole.alumni).mpr rfl

/-- C5: from any reachable LinkedInVerification-stage state, both
`verificationComplete` (with any verified flag and any data) and `skip`
land on MainApp; in particular the concrete alumni path reaches
LinkedInVerification and `skip` from there lands on MainApp. -/
theorem linkedInVerification_exit_unconditional :
    (∀ (s : AppState) (v : Bool) (d : Option LinkedInProfile),
      Reachable s → currentStage s = Stage.LinkedInVerification →
        currentStage (handleLinkedInVerificationComplete v d s) = Stage.MainApp
        ∧ currentStage (applyEvent AppEvent.verificationSkip s) = Stage.MainApp)
    ∧ currentStage linkedInStateAlumni = Stage.LinkedInVerification
    ∧ currentStage (applyEvent AppEvent.verificationSkip linkedInStateAlumni)
        = Stage.MainApp := by
  refine ⟨?_, by decide, by decide⟩
  intro s v d hr hg
  obtain ⟨hL, hW, hRS, hA, hLI, hRole, hUser⟩ :=
    shape_at_linkedIn (reachable_shape hr) hg
  constructor
  · simp [handleLinkedInVerificationComplete, currentStage, hL, hW, hRS, hA]
  · simp [applyEvent, handleLinkedInVerificationComplete, currentStage, hL, hW, hRS, hA]

/-- Closed instance of `linkedInVerification_exit_unconditional`: an
unverified completion from the alumni path's LinkedInVerification state
lands on MainApp. -/
theorem linkedInVerification_exit_unconditional_witness :
    currentStage (handleLinkedInVerificationComplete false none linkedInStateAlumni)
      = Stage.MainApp :=
  (linkedInVerification_exit_unconditional.1 linkedInStateAlumni false none
    linkedInStateAlumni_reachable rfl).1

/-- C6 counterexample: after a user cancellation the pipeline is
short-circuited with no side effects, but the caller does not stay at the
Authentication stage — it stays at the LinkedInVerification stage, where
the connect button lives. -/
theorem connectCancel_not_authentication :
    (handleLinkedInConnect alumniUser "state123" cancelResult 2024).cancelled = true
    ∧ (handleLinkedInConnect alumniUser "state123" cancelResult 2024).completion = none
    ∧ appStateAfterConnect linkedInStateAlumni
        (handleLinkedInConnect alumniUser "state123" cancelResult 2024)
        = linkedInStateAlumni
    ∧ currentStage (appStateAfterConnect linkedInStateAlumni
        (handleLinkedInConnect alumniUser "state123" cancelResult 2024))
        ≠ Stage.Authentication
    ∧ currentStage (appStateAfterConnect linkedInStateAlumni
        (handleLinkedInConnect alumniUser "state123" cancelResult 2024))
        = Stage.LinkedInVerification := by
  decide

/-- C6 amended: a user cancellation short-circuits the pipeline with no
side effects — token exchange, profile fetch and eligibility evaluation do
not run, no completion callback fires, and the App session state (and with
it the current stage, LinkedInVerification) is unchanged. -/
theorem connectCancel_no_side_effects (user : AuthUser) (expectedState : String)
    (result : OAuthResult) (currentYear : Nat) (s : AppState)
    (hc : result.type = OAuthResultType.cancel) :
    (handleLinkedInConnect user expectedState result currentYear).cancelled = true
    ∧ (handleLinkedInConnect user expectedState result currentYear).tokenExchangeRan = false
    ∧ (handleLinkedInConnect user expectedState result currentYear).profileFetchRan = false
    ∧ (handleLinkedInConnect user expectedState result currentYear).eligibilityRan = false
    ∧ (handleLinkedInConnect user expectedState result currentYear).completion = none
    ∧ appStateAfterConnect s (handleLinkedInConnect user expectedState result currentYear) = s
    ∧ currentStage (appStateAfterConnect s
        (handleLinkedInConnect user expectedState result currentYear)) = currentStage s := by
  have hns : ¬(result.type = OAuthResultType.success ∧ result.code.isSome = true
      ∧ result.state = some expectedState) := by
    rintro ⟨h1, -, -⟩
    rw [hc] at h1
    cases h1
  simp only [handleLinkedInConnect, if_neg hns, if_pos hc]
  simp [appStateAfterConnect]

/-- Closed instance of `connectCancel_no_side_effects` at the alumni
path's LinkedInVerification state. -/
theorem connectCancel_no_side_effects_witness :
    appStateAfterConnect linkedInStateAlumni
      (handleLinkedInConnect alumniUser "state123" cancelResult 2024)
      = linkedInStateAlumni :=
  (connectCancel_no_side_effects alumniUser "state123" cancelResult 2024
    linkedInStateAlumni rfl).2.2.2.2.2.1

end NYTHC
